import Mathlib

/-!
# Server start-up of the circuit command (`cmd/circuit/start.go`)

A shallow embedding of `parseAddr` and `server`.  Calls that leave the file
(the `net` resolvers, `n.ParseAddr`, `readkey`, `load`, the kinfolk and
circuit packages) are taken from an environment `Env`; every such call is
recorded, in program order, as an `Event`.  A `log.Fatal` ends the run with
the `Fatal` value of its call site.
-/

namespace Circuit

/-! ## Data of package `net` used by the file -/

/-- Go `net.IP`: a byte slice; the nil slice and the empty slice are both `[]`. -/
abbrev IP := List (Fin 256)

def IPv4len : Nat := 4

def IPv6len : Nat := 16

/-- Go `net.v4InV6Prefix`. -/
def v4InV6Prefix : IP := [0, 0, 0, 0, 0, 0, 0, 0, 0, 0, 0xff, 0xff]

/-- Go `net.IPv4(a, b, c, d)`: the 16-byte form of an IPv4 address. -/
def IPv4 (a b c d : Fin 256) : IP := v4InV6Prefix ++ [a, b, c, d]

/-- Go `net.IPv4zero`, the wildcard address 0.0.0.0. -/
def IPv4zero : IP := IPv4 0 0 0 0

/-- Go `net.isZeros`. -/
def isZeros (p : IP) : Bool := p.all (fun b => b == 0)

/-- Go `IP.To4`: the 4-byte representation, `none` for Go's nil result. -/
def To4 (ip : IP) : Option IP :=
  if ip.length = IPv4len then some ip
  else if ip.length = IPv6len ∧ isZeros (ip.take 10) = true
      ∧ ip.get? 10 = some 0xff ∧ ip.get? 11 = some 0xff then
    some ((ip.drop 12).take 4)
  else none

/-- Go `net.TCPAddr`. -/
structure TCPAddr where
  IP : IP
  Port : Int
  Zone : String
  deriving DecidableEq, Repr

/-- Go `net.UDPAddr`. -/
structure UDPAddr where
  IP : IP
  Port : Int
  Zone : String
  deriving DecidableEq, Repr

/-- Go `net.Interface`, as far as the file looks at it. -/
structure Interface where
  Index : Nat
  Name : String
  deriving DecidableEq, Repr

/-- Dynamic values of Go `net.Addr`: `*net.IPNet`, and `*net.IPAddr` standing
for every other implementation. -/
inductive Addr where
  | IPNet (ip : IP) (mask : List (Fin 256))
  | IPAddr (ip : IP) (zone : String)
  deriving DecidableEq, Repr

/-- The IP carried by an address value. -/
def Addr.ip : Addr → IP
  | .IPNet ip _ => ip
  | .IPAddr ip _ => ip

/-! ## Values of the circuit packages -/

/-- A non-nil `n.Addr`; the nil interface value is `none : Option NAddr`. -/
structure NAddr where
  text : String
  deriving DecidableEq, Repr

/-- Result of `readkey`, a byte slice. -/
abbrev Key := List (Fin 256)

/-- The two exported values registered by `server`: `xkin` of `kinfolk.NewKin`
and `xlocus` of `locus.NewLocus`. -/
inductive Service where
  | xkin
  | xlocus
  deriving DecidableEq, Repr

/-! ## Command line -/

/-- The part of `cli.Context` read here: the flags given on the command line. -/
structure Context where
  flags : String → Option String

/-- Go `c.IsSet(name)`. -/
def Context.IsSet (c : Context) (name : String) : Bool := (c.flags name).isSome

/-- Go `c.String(name)` (the name `String` is taken in Lean); only read in the file after `IsSet(name)`, except for `var`. -/
def Context.Str (c : Context) (name : String) : String := (c.flags name).getD ""

/-- The same command line with one flag removed. -/
def Context.unset (c : Context) (name : String) : Context :=
  ⟨fun k => if k = name then none else c.flags k⟩

/-! ## Environment, events, outcomes -/

deriving instance DecidableEq for Except

/-- Everything `start.go` calls but does not define.  An `Except.error` carries
the text of the Go `error`; a successful parse never yields a nil address. -/
structure Env where
  /-- Go `net.ResolveTCPAddr(network, address)`. -/
  ResolveTCPAddr : String → String → Except String TCPAddr
  /-- Go `net.InterfaceByName(name)`. -/
  InterfaceByName : String → Except String Interface
  /-- Go `ifc.Addrs()`. -/
  Addrs : Interface → Except String (List Addr)
  /-- Go `n.ParseAddr(s)`. -/
  ParseAddr : String → Except String NAddr
  /-- Go `net.ResolveUDPAddr(network, address)`. -/
  ResolveUDPAddr : String → String → Except String UDPAddr
  /-- Value of `path.Join(os.TempDir(), fmt.Sprintf("%s-%%W-P%04d", n.Scheme, os.Getpid()))`. -/
  tempVarDir : String
  /-- Go `readkey(c)`, defined in another file of the package. -/
  readkey : Context → Key
  /-- Go `load(tcpaddr, varDir, key)`, defined in another file of the package. -/
  load : TCPAddr → String → Key → NAddr
  /-- Go `kinfolk.ServiceName`. -/
  ServiceName : String

/-- Ways the process is ended by the file itself, one per call site. -/
inductive Fatal where
  /-- Line 86. -/
  | resolve (err : String)
  /-- Line 96. -/
  | interfaceNotFound (name err : String)
  /-- Line 100. -/
  | addrsNotRetrieved (err : String)
  /-- Line 103. -/
  | noAddresses
  /-- Line 112. -/
  | noIPv4
  /-- Line 114. -/
  | addrOrIfRequired
  /-- Line 36. -/
  | joinNotParsed (err : String)
  /-- Line 43. -/
  | multicastNotParsed (err : String)
  /-- Line 106: the run-time panic of a failed type assertion `a.(*net.IPNet)`. -/
  | assertionPanic
  deriving DecidableEq, Repr

/-- First argument of the `log.Fatal`/`log.Fatalf` call at each site; for the
panic, the start of the run-time error text. -/
def Fatal.format : Fatal → String
  | .resolve _ => "resolve %s (%s)\n"
  | .interfaceNotFound _ _ => "interface %s not found (%v)"
  | .addrsNotRetrieved _ => "interface address cannot be retrieved (%v)"
  | .noAddresses => "no addresses associated with this interface"
  | .noIPv4 => "specified interface has no IPv4 addresses"
  | .addrOrIfRequired => "either an -addr or an -if option is required to start a server"
  | .joinNotParsed _ => "join address does not parse (%s)"
  | .multicastNotParsed _ => "udp multicast address for discovery and assembly does not parse (%s)"
  | .assertionPanic => "interface conversion"

/-- Error taxonomy of the specification (section 7), as names for the call sites. -/
inductive ErrorKind where
  | MissingAddressConfigError
  | AddressParseError
  | InterfaceLookupError
  | AddressEnumerationError
  | NoIPv4Error
  | JoinAddressParseError
  | MulticastAddressParseError
  deriving DecidableEq, Repr

/-- The taxonomy name of each `log.Fatal` site; the type-assertion panic has none. -/
def Fatal.kind : Fatal → Option ErrorKind
  | .resolve _ => some .AddressParseError
  | .interfaceNotFound _ _ => some .InterfaceLookupError
  | .addrsNotRetrieved _ => some .AddressEnumerationError
  | .noAddresses => some .AddressEnumerationError
  | .noIPv4 => some .NoIPv4Error
  | .addrOrIfRequired => some .MissingAddressConfigError
  | .joinNotParsed _ => some .JoinAddressParseError
  | .multicastNotParsed _ => some .MulticastAddressParseError
  | .assertionPanic => none

/-- The five kinds raised inside `parseAddr`. -/
def ErrorKind.isAddressResolution : ErrorKind → Bool
  | .MissingAddressConfigError => true
  | .AddressParseError => true
  | .InterfaceLookupError => true
  | .AddressEnumerationError => true
  | .NoIPv4Error => true
  | .JoinAddressParseError => false
  | .MulticastAddressParseError => false

/-- Calls made by `server` and `parseAddr`, in program order. -/
inductive Event where
  | println (s : String)
  | ResolveTCPAddr (network address : String)
  | InterfaceByName (name : String)
  | Addrs (ifc : Interface)
  | ParseAddr (s : String)
  | ResolveUDPAddr (network address : String)
  | readkey
  | load (tcpaddr : TCPAddr) (varDir : String) (key : Key)
  | NewKin
  | NewLocus
  | ReJoin (join : NAddr)
  | NewAssembler (addr : NAddr) (multicast : UDPAddr)
  | goAssembleServer
  | logPrintln (s : String)
  | Listen (name : String) (x : Service)
  deriving DecidableEq, Repr

/-- How a run of `server` ends: killed by a `Fatal`, or parked for ever on the
receive from the nil channel (line 78). -/
inductive Ending where
  | fatal (f : Fatal)
  | waitForever
  deriving DecidableEq, Repr

/-- A run of `server`: the calls made, then the ending. -/
structure Run where
  events : List Event
  ending : Ending
  deriving DecidableEq, Repr

/-! ## `parseAddr` (lines 81-117) -/

/-- The loop of lines 105-112 over the enumerated addresses. -/
def pickIPv4 : List Addr → Except Fatal TCPAddr
  | [] => .error .noIPv4
  | .IPNet ip _ :: rest =>
    if To4 ip = none then pickIPv4 rest
    else .ok { IP := ip, Port := 0, Zone := "" }
  | .IPAddr _ _ :: _ => .error .assertionPanic

/-- Go `parseAddr(c)`: the calls made and the address returned, or the way the
process was ended. -/
def parseAddr (env : Env) (c : Context) : List Event × Except Fatal TCPAddr :=
  if c.IsSet "addr" then
    match env.ResolveTCPAddr "tcp" (c.Str "addr") with
    | .error err => ([.ResolveTCPAddr "tcp" (c.Str "addr")], .error (.resolve err))
    | .ok addr =>
      ([.ResolveTCPAddr "tcp" (c.Str "addr")],
        .ok (if addr.IP.length = 0 then { addr with IP := IPv4zero } else addr))
  else if c.IsSet "if" then
    match env.InterfaceByName (c.Str "if") with
    | .error err =>
      ([.InterfaceByName (c.Str "if")], .error (.interfaceNotFound (c.Str "if") err))
    | .ok ifc =>
      match env.Addrs ifc with
      | .error err =>
        ([.InterfaceByName (c.Str "if"), .Addrs ifc], .error (.addrsNotRetrieved err))
      | .ok addrs =>
        ([.InterfaceByName (c.Str "if"), .Addrs ifc],
          if addrs.length = 0 then .error .noAddresses else pickIPv4 addrs)
  else ([], .error .addrOrIfRequired)

/-! ## `server` (lines 27-79) -/

def LocusName : String := "locus"

/-- Lines 33-38: the `join` variable, nil unless the flag is set. -/
def joinArg (env : Env) (c : Context) : List Event × Except Fatal (Option NAddr) :=
  if c.IsSet "join" then
    match env.ParseAddr (c.Str "join") with
    | .error err => ([.ParseAddr (c.Str "join")], .error (.joinNotParsed err))
    | .ok join => ([.ParseAddr (c.Str "join")], .ok (some join))
  else ([], .ok none)

/-- Lines 40-45: the `multicast` variable, nil unless the flag is set. -/
def multicastArg (env : Env) (c : Context) : List Event × Except Fatal (Option UDPAddr) :=
  if c.IsSet "discover" then
    match env.ResolveUDPAddr "udp" (c.Str "discover") with
    | .error err =>
      ([.ResolveUDPAddr "udp" (c.Str "discover")], .error (.multicastNotParsed err))
    | .ok multicast => ([.ResolveUDPAddr "udp" (c.Str "discover")], .ok (some multicast))
  else ([], .ok none)

/-- Lines 47-52. -/
def varDir (env : Env) (c : Context) : String :=
  if !c.IsSet "var" then env.tempVarDir else c.Str "var"

/-- Lines 62-73: the `switch` on the two parsed variables. -/
def joining (addr : NAddr) : Option NAddr → Option UDPAddr → List Event
  | some join, _ => [.ReJoin join]
  | none, some multicast => [.NewAssembler addr multicast, .goAssembleServer]
  | none, none => [.logPrintln "Singleton server."]

/-- Go `server(c)`. -/
def server (env : Env) (c : Context) : Run :=
  let banner : List Event := [.println "CIRCUIT 2014 gocircuit.org"]
  match parseAddr env c with
  | (e1, .error f) => ⟨banner ++ e1, .fatal f⟩
  | (e1, .ok tcpaddr) =>
    match joinArg env c with
    | (e2, .error f) => ⟨banner ++ e1 ++ e2, .fatal f⟩
    | (e2, .ok join) =>
      match multicastArg env c with
      | (e3, .error f) => ⟨banner ++ e1 ++ e2 ++ e3, .fatal f⟩
      | (e3, .ok multicast) =>
        let key := env.readkey c
        let addr := env.load tcpaddr (varDir env c) key
        ⟨banner ++ e1 ++ e2 ++ e3
          ++ [.readkey, .load tcpaddr (varDir env c) key, .NewKin, .NewLocus]
          ++ joining addr join multicast
          ++ [.Listen env.ServiceName .xkin, .Listen LocusName .xlocus],
         .waitForever⟩

/-- The events of lines 28-45: the banner, then the calls of the three argument blocks. -/
def argEvents (env : Env) (c : Context) : List Event :=
  [.println "CIRCUIT 2014 gocircuit.org"] ++ (parseAddr env c).1 ++ (joinArg env c).1
    ++ (multicastArg env c).1

/-! ## Predicates on runs -/

def Event.isLoad : Event → Bool
  | .load _ _ _ => true
  | _ => false

def Event.isListen : Event → Bool
  | .Listen _ _ => true
  | _ => false

def Event.isReJoin : Event → Bool
  | .ReJoin _ => true
  | _ => false

/-- The discovery task: `assemble.NewAssembler(...)` and the `go` statement on it. -/
def Event.isDiscovery : Event → Bool
  | .NewAssembler _ _ => true
  | .goAssembleServer => true
  | _ => false

def Event.isInterfaceByName : Event → Bool
  | .InterfaceByName _ => true
  | _ => false

/-- The parser and lookup calls of lines 32-45, made before `readkey` and `load`. -/
def Event.isArgParse : Event → Bool
  | .ResolveTCPAddr _ _ => true
  | .InterfaceByName _ => true
  | .Addrs _ => true
  | .ParseAddr _ => true
  | .ResolveUDPAddr _ _ => true
  | _ => false

/-! ## A concrete environment -/

/-- A command line given as a list of flag/value pairs. -/
def Context.ofList (l : List (String × String)) : Context :=
  ⟨fun k => (l.find? (fun p => p.1 == k)).map (fun p => p.2)⟩

def eth0 : Interface := ⟨2, "eth0"⟩

def eth1 : Interface := ⟨3, "eth1"⟩

def dummy0 : Interface := ⟨4, "dummy0"⟩

/-- The address fe80::1. -/
def linkLocal : IP := [0xfe, 0x80, 0, 0, 0, 0, 0, 0, 0, 0, 0, 0, 0, 0, 0, 1]

/-- Go `net.CIDRMask(64, 128)`. -/
def mask64 : List (Fin 256) := [0xff, 0xff, 0xff, 0xff, 0xff, 0xff, 0xff, 0xff, 0, 0, 0, 0, 0, 0, 0, 0]

/-- Addresses of `eth0`: fe80::1/64, 192.168.1.10/24, 10.1.1.1/8. -/
def eth0Addrs : List Addr :=
  [.IPNet linkLocal mask64, .IPNet (IPv4 192 168 1 10) [0xff, 0xff, 0xff, 0],
   .IPNet (IPv4 10 1 1 1) [0xff, 0, 0, 0]]

/-- Addresses of `eth1`: fe80::1/64 only. -/
def eth1Addrs : List Addr := [.IPNet linkLocal mask64]

def peer : NAddr := ⟨"circuit://10.0.0.9:7000/78517/Q56e7a2a0d47a7b5d"⟩

/-- An environment with a few known strings and interfaces: `eth0` carries an
IPv6 and then an IPv4 address, `eth1` only an IPv6 one, `dummy0` none. -/
def sampleEnv : Env where
  ResolveTCPAddr := fun _ s =>
    if s = ":7000" then .ok ⟨[], 7000, ""⟩
    else if s = "10.0.0.5:7000" then .ok ⟨IPv4 10 0 0 5, 7000, ""⟩
    else .error ("address " ++ s ++ ": missing port in address")
  InterfaceByName := fun name =>
    if name = "eth0" then .ok eth0
    else if name = "eth1" then .ok eth1
    else if name = "dummy0" then .ok dummy0
    else .error "route ip+net: no such network interface"
  Addrs := fun ifc =>
    if ifc = eth0 then .ok eth0Addrs
    else if ifc = eth1 then .ok eth1Addrs
    else .ok []
  ParseAddr := fun s =>
    if s = peer.text then .ok peer else .error "unrecognized address"
  ResolveUDPAddr := fun _ s =>
    if s = "239.0.0.1:9999" then .ok ⟨IPv4 239 0 0 1, 9999, ""⟩
    else .error ("address " ++ s ++ ": missing port in address")
  tempVarDir := "/tmp/circuit-%W-P4242"
  readkey := fun _ => []
  load := fun tcpaddr _ _ => ⟨"circuit://" ++ toString tcpaddr.Port⟩
  ServiceName := "kin"

/-! ## Command lines used as concrete inputs -/

/-- Command line `-addr :7000`. -/
def ctxAddr : Context := Context.ofList [("addr", ":7000")]

/-- Command line `-if eth0`. -/
def ctxEth0 : Context := Context.ofList [("if", "eth0")]

/-- Command line `-if eth1`. -/
def ctxEth1 : Context := Context.ofList [("if", "eth1")]

/-- Command line `-if dummy0`. -/
def ctxDummy0 : Context := Context.ofList [("if", "dummy0")]

/-- Command line `-addr :7000 -if eth1`. -/
def ctxAddrIf : Context := Context.ofList [("addr", ":7000"), ("if", "eth1")]

/-- Command line `-addr :7000 -join not-an-address`. -/
def ctxBadJoin : Context := Context.ofList [("addr", ":7000"), ("join", "not-an-address")]

/-- Command line `-addr 10.0.0.5:7000 -join <peer> -discover 239.0.0.1:9999`. -/
def ctxJoinDiscover : Context :=
  Context.ofList [("addr", "10.0.0.5:7000"), ("join", peer.text), ("discover", "239.0.0.1:9999")]

/-- Command line `-addr :7000 -join <peer> -discover 239.0.0.1`, the discovery
address lacking its port. -/
def ctxJoinBadDiscover : Context :=
  Context.ofList [("addr", ":7000"), ("join", peer.text), ("discover", "239.0.0.1")]

/-- Command line `-addr 10.0.0.5:7000 -join <peer>`. -/
def ctxJoin : Context := Context.ofList [("addr", "10.0.0.5:7000"), ("join", peer.text)]

theorem To4_ne_nil {ip r : IP} (h : To4 ip = some r) : ip ≠ [] := by
  rintro rfl
  simp [To4, IPv4len, IPv6len] at h

theorem IPv4zero_ne_nil : IPv4zero ≠ [] := by decide

/-- The loop returns the first IP network with an IPv4 form when every element
before it is an IP network without one. -/
theorem pickIPv4_append (pre post : List Addr) (ip : IP) (mask : List (Fin 256))
    (hpre : ∀ a ∈ pre, ∃ i m, a = Addr.IPNet i m ∧ To4 i = none)
    (hip : To4 ip ≠ none) :
    pickIPv4 (pre ++ Addr.IPNet ip mask :: post) = .ok ⟨ip, 0, ""⟩ := by
  induction pre with
  | nil => simp [pickIPv4, hip]
  | cons a pre ih =>
    obtain ⟨i, m, rfl, hi⟩ := hpre a (List.mem_cons_self _ _)
    have ih2 := ih (fun b hb => hpre b (List.mem_cons_of_mem _ hb))
    simp [pickIPv4, hi, ih2]

/-- A list of IP networks with an IPv4 one splits at the first such element. -/
theorem split_first_IPv4 (addrs : List Addr)
    (hNet : ∀ a ∈ addrs, ∃ i m, a = Addr.IPNet i m)
    (hV4 : ∃ i m, Addr.IPNet i m ∈ addrs ∧ To4 i ≠ none) :
    ∃ pre ip mask post, addrs = pre ++ Addr.IPNet ip mask :: post
      ∧ (∀ a ∈ pre, ∃ i m, a = Addr.IPNet i m ∧ To4 i = none) ∧ To4 ip ≠ none := by
  induction addrs with
  | nil =>
    obtain ⟨i, m, hm, _⟩ := hV4
    simp at hm
  | cons a rest ih =>
    obtain ⟨i, m, rfl⟩ := hNet a (List.mem_cons_self _ _)
    by_cases hi : To4 i = none
    · have hV4rest : ∃ i2 m2, Addr.IPNet i2 m2 ∈ rest ∧ To4 i2 ≠ none := by
        obtain ⟨i2, m2, hm, h2⟩ := hV4
        rcases List.mem_cons.1 hm with heq | hin
        · injection heq with h1 _
          subst h1
          exact absurd hi h2
        · exact ⟨i2, m2, hin, h2⟩
      obtain ⟨pre, ip, mask, post, hsplit, hpre, hip⟩ :=
        ih (fun b hb => hNet b (List.mem_cons_of_mem _ hb)) hV4rest
      refine ⟨Addr.IPNet i m :: pre, ip, mask, post, by simp [hsplit], ?_, hip⟩
      intro b hb
      rcases List.mem_cons.1 hb with rfl | hb
      · exact ⟨i, m, rfl, hi⟩
      · exact hpre b hb
    · exact ⟨[], i, m, rest, rfl, by simp, hi⟩

/-- Whatever the loop returns has an IPv4 form and port 0. -/
theorem pickIPv4_ok {addrs : List Addr} {r : TCPAddr} (h : pickIPv4 addrs = .ok r) :
    To4 r.IP ≠ none ∧ r.Port = 0 := by
  induction addrs with
  | nil => simp [pickIPv4] at h
  | cons a rest ih =>
    cases a with
    | IPNet i m =>
      by_cases hi : To4 i = none
      · simp [pickIPv4, hi] at h
        exact ih h
      · simp [pickIPv4, hi] at h
        subst h
        exact ⟨hi, rfl⟩
    | IPAddr i z => simp [pickIPv4] at h

/-- The loop on a list without any IPv4 IP network that consists of IP networks. -/
theorem pickIPv4_none (addrs : List Addr)
    (h : ∀ a ∈ addrs, ∃ i m, a = Addr.IPNet i m ∧ To4 i = none) :
    pickIPv4 addrs = .error .noIPv4 := by
  induction addrs with
  | nil => rfl
  | cons a rest ih =>
    obtain ⟨i, m, rfl, hi⟩ := h a (List.mem_cons_self _ _)
    simp [pickIPv4, hi, ih (fun b hb => h b (List.mem_cons_of_mem _ hb))]

/-- The loop fails only at its end or at a failed type assertion. -/
theorem pickIPv4_error {addrs : List Addr} {f : Fatal} (h : pickIPv4 addrs = .error f) :
    f = .noIPv4 ∨ f = .assertionPanic := by
  induction addrs with
  | nil =>
    simp [pickIPv4] at h
    exact Or.inl h.symm
  | cons a rest ih =>
    cases a with
    | IPNet i m =>
      by_cases hi : To4 i = none
      · simp [pickIPv4, hi] at h
        exact ih h
      · simp [pickIPv4, hi] at h
    | IPAddr i z =>
      simp [pickIPv4] at h
      exact Or.inr h.symm

/-- The interface path, once the interface and its addresses are known. -/
theorem parseAddr_if (env : Env) (c : Context) (ifc : Interface) (addrs : List Addr)
    (hAddr : c.IsSet "addr" = false) (hIf : c.IsSet "if" = true)
    (hIfc : env.InterfaceByName (c.Str "if") = .ok ifc) (hAddrs : env.Addrs ifc = .ok addrs) :
    parseAddr env c = ([.InterfaceByName (c.Str "if"), .Addrs ifc],
      if addrs.length = 0 then .error .noAddresses else pickIPv4 addrs) := by
  simp [parseAddr, hAddr, hIf, hIfc, hAddrs]

/-- Every failure of `parseAddr` is the type-assertion panic or one of the five
address-resolution kinds. -/
theorem parseAddr_error_kind (env : Env) (c : Context) (f : Fatal)
    (h : (parseAddr env c).2 = .error f) :
    f = .assertionPanic ∨ ∃ k, f.kind = some k ∧ k.isAddressResolution = true := by
  unfold parseAddr at h
  split_ifs at h with h1 h2
  · cases hr : env.ResolveTCPAddr "tcp" (c.Str "addr") with
    | error err =>
      simp [hr] at h
      subst h
      exact Or.inr ⟨_, rfl, rfl⟩
    | ok a => simp [hr] at h
  · cases hi : env.InterfaceByName (c.Str "if") with
    | error err =>
      simp [hi] at h
      subst h
      exact Or.inr ⟨_, rfl, rfl⟩
    | ok ifc =>
      cases ha : env.Addrs ifc with
      | error err =>
        simp [hi, ha] at h
        subst h
        exact Or.inr ⟨_, rfl, rfl⟩
      | ok addrs =>
        simp [hi, ha] at h
        split_ifs at h with h3
        · injection h with h
          subst h
          exact Or.inr ⟨_, rfl, rfl⟩
        · rcases pickIPv4_error h with rfl | rfl
          · exact Or.inr ⟨_, rfl, rfl⟩
          · exact Or.inl rfl
  · simp at h
    subst h
    exact Or.inr ⟨_, rfl, rfl⟩

/-! ## Lemmas on `server` -/

theorem parseAddr_events_argParse (env : Env) (c : Context) :
    ∀ e ∈ (parseAddr env c).1, e.isArgParse = true := by
  unfold parseAddr
  split_ifs with h1 h2
  · cases env.ResolveTCPAddr "tcp" (c.Str "addr") <;> simp [Event.isArgParse]
  · cases env.InterfaceByName (c.Str "if") with
    | error err => simp [Event.isArgParse]
    | ok ifc => cases hA : env.Addrs ifc <;> simp [hA, Event.isArgParse]
  · simp

theorem joinArg_events_argParse (env : Env) (c : Context) :
    ∀ e ∈ (joinArg env c).1, e.isArgParse = true := by
  unfold joinArg
  split_ifs with h1
  · cases env.ParseAddr (c.Str "join") <;> simp [Event.isArgParse]
  · simp

theorem multicastArg_events_argParse (env : Env) (c : Context) :
    ∀ e ∈ (multicastArg env c).1, e.isArgParse = true := by
  unfold multicastArg
  split_ifs with h1
  · cases env.ResolveUDPAddr "udp" (c.Str "discover") <;> simp [Event.isArgParse]
  · simp

theorem isArgParse_not_later {e : Event} (h : e.isArgParse = true) :
    e.isLoad = false ∧ e.isListen = false ∧ e.isReJoin = false ∧ e.isDiscovery = false := by
  cases e <;> simp_all [Event.isArgParse, Event.isLoad, Event.isListen, Event.isReJoin,
    Event.isDiscovery]

theorem argEvents_not_later (env : Env) (c : Context) :
    ∀ e ∈ argEvents env c,
      e.isLoad = false ∧ e.isListen = false ∧ e.isReJoin = false ∧ e.isDiscovery = false := by
  intro e he
  simp only [argEvents, List.mem_append, List.mem_singleton] at he
  rcases he with ((rfl | he) | he) | he
  · decide
  · exact isArgParse_not_later (parseAddr_events_argParse env c e he)
  · exact isArgParse_not_later (joinArg_events_argParse env c e he)
  · exact isArgParse_not_later (multicastArg_events_argParse env c e he)

/-- The run when all three argument blocks succeed. -/
theorem server_of_ok (env : Env) (c : Context) (tcp : TCPAddr) (j : Option NAddr)
    (m : Option UDPAddr)
    (h1 : (parseAddr env c).2 = .ok tcp) (h2 : (joinArg env c).2 = .ok j)
    (h3 : (multicastArg env c).2 = .ok m) :
    server env c =
      ⟨argEvents env c
        ++ [.readkey, .load tcp (varDir env c) (env.readkey c), .NewKin, .NewLocus]
        ++ joining (env.load tcp (varDir env c) (env.readkey c)) j m
        ++ [.Listen env.ServiceName .xkin, .Listen LocusName .xlocus], .waitForever⟩ := by
  rcases hp : parseAddr env c with ⟨e1, r1⟩
  rcases hj : joinArg env c with ⟨e2, r2⟩
  rcases hm : multicastArg env c with ⟨e3, r3⟩
  simp only [hp, hj, hm] at h1 h2 h3
  subst h1 h2 h3
  simp [server, argEvents, hp, hj, hm]

/-- The run when `parseAddr` fails. -/
theorem server_of_parseAddr_error (env : Env) (c : Context) (f : Fatal)
    (h1 : (parseAddr env c).2 = .error f) :
    server env c = ⟨[.println "CIRCUIT 2014 gocircuit.org"] ++ (parseAddr env c).1, .fatal f⟩ := by
  rcases hp : parseAddr env c with ⟨e1, r1⟩
  simp only [hp] at h1
  subst h1
  simp [server, hp]

/-- The run when the join address does not parse. -/
theorem server_of_joinArg_error (env : Env) (c : Context) (tcp : TCPAddr) (f : Fatal)
    (h1 : (parseAddr env c).2 = .ok tcp) (h2 : (joinArg env c).2 = .error f) :
    server env c =
      ⟨[.println "CIRCUIT 2014 gocircuit.org"] ++ (parseAddr env c).1 ++ (joinArg env c).1,
        .fatal f⟩ := by
  rcases hp : parseAddr env c with ⟨e1, r1⟩
  rcases hj : joinArg env c with ⟨e2, r2⟩
  simp only [hp, hj] at h1 h2
  subst h1 h2
  simp [server, hp, hj]

/-- The run when the multicast address does not parse. -/
theorem server_of_multicastArg_error (env : Env) (c : Context) (tcp : TCPAddr)
    (j : Option NAddr) (f : Fatal)
    (h1 : (parseAddr env c).2 = .ok tcp) (h2 : (joinArg env c).2 = .ok j)
    (h3 : (multicastArg env c).2 = .error f) :
    server env c = ⟨argEvents env c, .fatal f⟩ := by
  rcases hp : parseAddr env c with ⟨e1, r1⟩
  rcases hj : joinArg env c with ⟨e2, r2⟩
  rcases hm : multicastArg env c with ⟨e3, r3⟩
  simp only [hp, hj, hm] at h1 h2 h3
  subst h1 h2 h3
  simp [server, argEvents, hp, hj, hm]

/-- The `join` block fails only with the join-address parse error. -/
theorem joinArg_error (env : Env) (c : Context) (f : Fatal)
    (h : (joinArg env c).2 = .error f) :
    c.IsSet "join" = true ∧ ∃ err, env.ParseAddr (c.Str "join") = .error err
      ∧ f = .joinNotParsed err := by
  unfold joinArg at h
  split_ifs at h with h1
  · cases hr : env.ParseAddr (c.Str "join") with
    | error err =>
      simp [hr] at h
      exact ⟨h1, err, rfl, h.symm⟩
    | ok a => simp [hr] at h

/-- The `discover` block fails only with the multicast-address parse error. -/
theorem multicastArg_error (env : Env) (c : Context) (f : Fatal)
    (h : (multicastArg env c).2 = .error f) :
    c.IsSet "discover" = true ∧ ∃ err, env.ResolveUDPAddr "udp" (c.Str "discover") = .error err
      ∧ f = .multicastNotParsed err := by
  unfold multicastArg at h
  split_ifs at h with h1
  · cases hr : env.ResolveUDPAddr "udp" (c.Str "discover") with
    | error err =>
      simp [hr] at h
      exact ⟨h1, err, rfl, h.symm⟩
    | ok a => simp [hr] at h

theorem joinArg_set (env : Env) (c : Context) (a : NAddr)
    (hj : c.IsSet "join" = true) (h : env.ParseAddr (c.Str "join") = .ok a) :
    joinArg env c = ([.ParseAddr (c.Str "join")], .ok (some a)) := by
  simp [joinArg, hj, h]

theorem multicastArg_set (env : Env) (c : Context) (m : UDPAddr)
    (hd : c.IsSet "discover" = true)
    (h : env.ResolveUDPAddr "udp" (c.Str "discover") = .ok m) :
    multicastArg env c = ([.ResolveUDPAddr "udp" (c.Str "discover")], .ok (some m)) := by
  simp [multicastArg, hd, h]

theorem multicastArg_unset (env : Env) (c : Context) (hd : c.IsSet "discover" = false) :
    multicastArg env c = ([], .ok none) := by
  simp [multicastArg, hd]

/-- The `discover` block succeeds when the flag is unset or its value parses. -/
theorem multicastArg_ok (env : Env) (c : Context)
    (h : c.IsSet "discover" = true → ∃ m, env.ResolveUDPAddr "udp" (c.Str "discover") = .ok m) :
    ∃ m, (multicastArg env c).2 = .ok m ∧ (m.isSome = c.IsSet "discover") := by
  cases hd : c.IsSet "discover" with
  | false => exact ⟨none, by rw [multicastArg_unset env c hd], rfl⟩
  | true =>
    obtain ⟨m, hm⟩ := h hd
    exact ⟨some m, by rw [multicastArg_set env c m hd hm], rfl⟩

/-- A run that ends with a `Fatal` made none of the calls from `load` on. -/
theorem server_fatal_events (env : Env) (c : Context) (f : Fatal)
    (h : (server env c).ending = .fatal f) :
    ∀ e ∈ (server env c).events,
      e.isLoad = false ∧ e.isListen = false ∧ e.isReJoin = false ∧ e.isDiscovery = false := by
  intro e he
  apply argEvents_not_later env c e
  cases h1 : (parseAddr env c).2 with
  | error f1 =>
    rw [server_of_parseAddr_error env c f1 h1] at he
    simp only [argEvents, List.mem_append] at he ⊢
    exact Or.inl (Or.inl he)
  | ok tcp =>
    cases h2 : (joinArg env c).2 with
    | error f2 =>
      rw [server_of_joinArg_error env c tcp f2 h1 h2] at he
      simp only [argEvents, List.mem_append] at he ⊢
      exact Or.inl he
    | ok j =>
      cases h3 : (multicastArg env c).2 with
      | error f3 =>
        rw [server_of_multicastArg_error env c tcp j f3 h1 h2 h3] at he
        exact he
      | ok m =>
        rw [server_of_ok env c tcp j m h1 h2 h3] at h
        simp at h

/-- In list form: a run that ends with a `Fatal` holds no `load`, no
registration, no join call and no discovery task. -/
theorem server_fatal_any (env : Env) (c : Context) (f : Fatal)
    (h : (server env c).ending = .fatal f) :
    (server env c).events.any Event.isLoad = false
      ∧ (server env c).events.any Event.isListen = false
      ∧ (server env c).events.any Event.isReJoin = false
      ∧ (server env c).events.any Event.isDiscovery = false := by
  have hall := server_fatal_events env c f h
  refine ⟨?_, ?_, ?_, ?_⟩ <;> rw [List.any_eq_false] <;> intro e he
  · simp [(hall e he).1]
  · simp [(hall e he).2.1]
  · simp [(hall e he).2.2.1]
  · simp [(hall e he).2.2.2]

theorem argEvents_any (env : Env) (c : Context) :
    (argEvents env c).any Event.isLoad = false
      ∧ (argEvents env c).any Event.isListen = false
      ∧ (argEvents env c).any Event.isReJoin = false
      ∧ (argEvents env c).any Event.isDiscovery = false := by
  have hall := argEvents_not_later env c
  refine ⟨?_, ?_, ?_, ?_⟩ <;> rw [List.any_eq_false] <;> intro e he
  · simp [(hall e he).1]
  · simp [(hall e he).2.1]
  · simp [(hall e he).2.2.1]
  · simp [(hall e he).2.2.2]

theorem argEvents_filter_reJoin (env : Env) (c : Context) :
    (argEvents env c).filter Event.isReJoin = [] := by
  rw [List.filter_eq_nil_iff]
  intro e he
  simp [(argEvents_not_later env c e he).2.2.1]

/-- The banner comes first and the calls of `parseAddr` directly after it. -/
theorem server_events_start (env : Env) (c : Context) :
    ∃ rest, (server env c).events
      = Event.println "CIRCUIT 2014 gocircuit.org" :: ((parseAddr env c).1 ++ rest) := by
  cases h1 : (parseAddr env c).2 with
  | error f1 =>
    exact ⟨[], by rw [server_of_parseAddr_error env c f1 h1]; simp⟩
  | ok tcp =>
    cases h2 : (joinArg env c).2 with
    | error f2 =>
      exact ⟨(joinArg env c).1, by rw [server_of_joinArg_error env c tcp f2 h1 h2]; simp⟩
    | ok j =>
      cases h3 : (multicastArg env c).2 with
      | error f3 =>
        exact ⟨(joinArg env c).1 ++ (multicastArg env c).1, by
          rw [server_of_multicastArg_error env c tcp j f3 h1 h2 h3]; simp [argEvents]⟩
      | ok m =>
        refine ⟨(joinArg env c).1 ++ (multicastArg env c).1
          ++ [.readkey, .load tcp (varDir env c) (env.readkey c), .NewKin, .NewLocus]
          ++ joining (env.load tcp (varDir env c) (env.readkey c)) j m
          ++ [.Listen env.ServiceName .xkin, .Listen LocusName .xlocus], ?_⟩
        rw [server_of_ok env c tcp j m h1 h2 h3]
        simp [argEvents]

/-- What ends a run with a `Fatal`: `parseAddr`, or after it the `join`
block, or after both the `discover` block. -/
theorem server_fatal_cases (env : Env) (c : Context) (f : Fatal)
    (h : (server env c).ending = .fatal f) :
    (parseAddr env c).2 = .error f
      ∨ ((∃ tcp, (parseAddr env c).2 = .ok tcp) ∧ (joinArg env c).2 = .error f)
      ∨ ((∃ tcp, (parseAddr env c).2 = .ok tcp) ∧ (∃ j, (joinArg env c).2 = .ok j)
          ∧ (multicastArg env c).2 = .error f) := by
  cases h1 : (parseAddr env c).2 with
  | error f1 =>
    rw [server_of_parseAddr_error env c f1 h1] at h
    injection h with h
    exact Or.inl (by rw [h])
  | ok tcp =>
    cases h2 : (joinArg env c).2 with
    | error f2 =>
      rw [server_of_joinArg_error env c tcp f2 h1 h2] at h
      injection h with h
      exact Or.inr (Or.inl ⟨⟨tcp, rfl⟩, by rw [h]⟩)
    | ok j =>
      cases h3 : (multicastArg env c).2 with
      | error f3 =>
        rw [server_of_multicastArg_error env c tcp j f3 h1 h2 h3] at h
        injection h with h
        exact Or.inr (Or.inr ⟨⟨tcp, rfl⟩, ⟨j, rfl⟩, by rw [h]⟩)
      | ok m =>
        rw [server_of_ok env c tcp j m h1 h2 h3] at h
        simp at h

/-! ## The address resolver -/

/-- C1: with `addr` set, a successful TCP-address parse is returned with port
(and zone) unchanged and with the IP replaced by 0.0.0.0 exactly when the
parsed IP is empty; a failed parse ends `parseAddr` with the address-parse
error of line 86 and no address. -/
theorem parseAddr_explicit_path (env : Env) (c : Context)
    (hAddr : c.IsSet "addr" = true) :
    (∀ a, env.ResolveTCPAddr "tcp" (c.Str "addr") = .ok a →
      ∃ r, (parseAddr env c).2 = .ok r ∧ r.Port = a.Port ∧ r.Zone = a.Zone
        ∧ (a.IP = [] → r.IP = IPv4zero) ∧ (a.IP ≠ [] → r.IP = a.IP))
    ∧ (∀ err, env.ResolveTCPAddr "tcp" (c.Str "addr") = .error err →
      (parseAddr env c).2 = .error (.resolve err)
        ∧ (Fatal.resolve err).kind = some .AddressParseError) := by
  constructor
  · intro a ha
    by_cases hip : a.IP = []
    · exact ⟨{ a with IP := IPv4zero }, by simp [parseAddr, hAddr, ha, hip], rfl, rfl,
        fun _ => rfl, fun h => absurd hip h⟩
    · refine ⟨a, ?_, rfl, rfl, fun h => absurd h hip, fun _ => rfl⟩
      simp [parseAddr, hAddr, ha, hip]
  · intro err he
    exact ⟨by simp [parseAddr, hAddr, he], rfl⟩

theorem parseAddr_explicit_path_witness :
    ctxAddr.IsSet "addr" = true
      ∧ ∃ r, (parseAddr sampleEnv ctxAddr).2 = .ok r ∧ r.Port = 7000 ∧ r.Zone = ""
        ∧ (([] : IP) = [] → r.IP = IPv4zero) ∧ (([] : IP) ≠ [] → r.IP = []) :=
  ⟨by decide,
    (parseAddr_explicit_path sampleEnv ctxAddr (by decide)).1 ⟨[], 7000, ""⟩ (by decide)⟩

/-- C2: with `if` set and `addr` not, an existing interface whose enumeration
yields IP networks, at least one with an IPv4 form, makes `parseAddr` return
the IP of the first such element (all earlier ones have no IPv4 form) with
port 0; the result is the same for every environment and command line that
enumerate the same list. -/
theorem parseAddr_interface_path (env : Env) (c : Context) (ifc : Interface)
    (addrs : List Addr)
    (hAddr : c.IsSet "addr" = false) (hIf : c.IsSet "if" = true)
    (hIfc : env.InterfaceByName (c.Str "if") = .ok ifc)
    (hAddrs : env.Addrs ifc = .ok addrs)
    (hNet : ∀ a ∈ addrs, ∃ i m, a = Addr.IPNet i m)
    (hV4 : ∃ i m, Addr.IPNet i m ∈ addrs ∧ To4 i ≠ none) :
    (∃ pre ip mask post, addrs = pre ++ Addr.IPNet ip mask :: post
      ∧ (∀ a ∈ pre, ∃ i m, a = Addr.IPNet i m ∧ To4 i = none)
      ∧ To4 ip ≠ none
      ∧ (parseAddr env c).2 = .ok ⟨ip, 0, ""⟩)
    ∧ (∀ (env2 : Env) (c2 : Context) (ifc2 : Interface),
        c2.IsSet "addr" = false → c2.IsSet "if" = true →
        env2.InterfaceByName (c2.Str "if") = .ok ifc2 → env2.Addrs ifc2 = .ok addrs →
        (parseAddr env2 c2).2 = (parseAddr env c).2) := by
  constructor
  · obtain ⟨pre, ip, mask, post, hsplit, hpre, hip⟩ := split_first_IPv4 addrs hNet hV4
    refine ⟨pre, ip, mask, post, hsplit, hpre, hip, ?_⟩
    rw [parseAddr_if env c ifc addrs hAddr hIf hIfc hAddrs]
    have hlen : addrs.length ≠ 0 := by simp [hsplit]
    simp only [hlen, if_false]
    rw [hsplit]
    exact pickIPv4_append pre post ip mask hpre hip
  · intro env2 c2 ifc2 h1 h2 h3 h4
    rw [parseAddr_if env c ifc addrs hAddr hIf hIfc hAddrs,
      parseAddr_if env2 c2 ifc2 addrs h1 h2 h3 h4]

theorem parseAddr_interface_path_witness :
    ∃ pre ip mask post, eth0Addrs = pre ++ Addr.IPNet ip mask :: post
      ∧ (∀ a ∈ pre, ∃ i m, a = Addr.IPNet i m ∧ To4 i = none)
      ∧ To4 ip ≠ none
      ∧ (parseAddr sampleEnv ctxEth0).2 = .ok ⟨ip, 0, ""⟩ :=
  (parseAddr_interface_path sampleEnv ctxEth0 eth0 eth0Addrs
    (by decide) (by decide) (by decide) (by decide)
    (by intro a ha; simp [eth0Addrs] at ha; rcases ha with rfl | rfl | rfl <;> exact ⟨_, _, rfl⟩)
    ⟨IPv4 192 168 1 10, [0xff, 0xff, 0xff, 0], by simp [eth0Addrs], by decide⟩).1

/-- C3, as stated, fails on an interface without addresses: the enumeration
of `dummy0` succeeds with the empty list, which holds no IPv4 address, and
`parseAddr` stops at line 103 with "no addresses associated with this
interface", an address-enumeration error, not at line 112. -/
theorem parseAddr_empty_enumeration_counterexample :
    ctxDummy0.IsSet "addr" = false ∧ ctxDummy0.IsSet "if" = true
      ∧ sampleEnv.InterfaceByName (ctxDummy0.Str "if") = .ok dummy0
      ∧ sampleEnv.Addrs dummy0 = .ok []
      ∧ (parseAddr sampleEnv ctxDummy0).2 = .error .noAddresses
      ∧ Fatal.noAddresses.kind = some .AddressEnumerationError
      ∧ Fatal.noAddresses.kind ≠ some .NoIPv4Error := by
  decide

/-- C3, amended: for an existing interface whose enumeration succeeds with a
non-empty list of IP networks none of which has an IPv4 form, `parseAddr`
ends with the error of line 112, "specified interface has no IPv4
addresses", of kind NoIPv4Error. -/
theorem parseAddr_no_IPv4 (env : Env) (c : Context) (ifc : Interface)
    (addrs : List Addr)
    (hAddr : c.IsSet "addr" = false) (hIf : c.IsSet "if" = true)
    (hIfc : env.InterfaceByName (c.Str "if") = .ok ifc)
    (hAddrs : env.Addrs ifc = .ok addrs)
    (hne : addrs ≠ [])
    (hNet : ∀ a ∈ addrs, ∃ i m, a = Addr.IPNet i m)
    (hNo4 : ∀ a ∈ addrs, To4 a.ip = none) :
    (parseAddr env c).2 = .error .noIPv4
      ∧ Fatal.noIPv4.kind = some .NoIPv4Error
      ∧ Fatal.noIPv4.format = "specified interface has no IPv4 addresses" := by
  refine ⟨?_, rfl, rfl⟩
  rw [parseAddr_if env c ifc addrs hAddr hIf hIfc hAddrs]
  have hlen : addrs.length ≠ 0 := by
    cases addrs with
    | nil => exact absurd rfl hne
    | cons a rest => simp
  simp only [hlen, if_false]
  apply pickIPv4_none
  intro a ha
  obtain ⟨i, m, rfl⟩ := hNet a ha
  exact ⟨i, m, rfl, hNo4 _ ha⟩

theorem parseAddr_no_IPv4_witness :
    (parseAddr sampleEnv ctxEth1).2 = .error .noIPv4
      ∧ Fatal.noIPv4.kind = some .NoIPv4Error
      ∧ Fatal.noIPv4.format = "specified interface has no IPv4 addresses" :=
  parseAddr_no_IPv4 sampleEnv ctxEth1 eth1 eth1Addrs
    (by decide) (by decide) (by decide) (by decide) (by decide)
    (by intro a ha; simp [eth1Addrs] at ha; subst ha; exact ⟨_, _, rfl⟩)
    (by intro a ha; simp [eth1Addrs] at ha; subst ha; decide)

/-- C8: an address returned by `parseAddr` never has an empty IP: with `addr`
set it is the parsed IP when that is non-empty and 0.0.0.0 otherwise; on the
interface path it is an IP with an IPv4 form. -/
theorem parseAddr_IP_nonempty (env : Env) (c : Context) (r : TCPAddr)
    (h : (parseAddr env c).2 = .ok r) :
    r.IP ≠ []
      ∧ (c.IsSet "addr" = true →
          ∃ a, env.ResolveTCPAddr "tcp" (c.Str "addr") = .ok a
            ∧ ((a.IP ≠ [] ∧ r.IP = a.IP) ∨ (a.IP = [] ∧ r.IP = IPv4zero)))
      ∧ (c.IsSet "addr" = false → c.IsSet "if" = true ∧ To4 r.IP ≠ none) := by
  unfold parseAddr at h
  split_ifs at h with h1 h2
  · cases hr : env.ResolveTCPAddr "tcp" (c.Str "addr") with
    | error err => simp [hr] at h
    | ok a =>
      simp only [hr] at h
      injection h with h
      by_cases hip : a.IP = []
      · simp [hip] at h
        subst h
        exact ⟨IPv4zero_ne_nil, fun _ => ⟨a, rfl, Or.inr ⟨hip, rfl⟩⟩, fun hf => by simp [h1] at hf⟩
      · have hlen : a.IP.length ≠ 0 := by simpa using hip
        simp only [hlen, if_false] at h
        subst h
        exact ⟨hip, fun _ => ⟨a, rfl, Or.inl ⟨hip, rfl⟩⟩, fun hf => by simp [h1] at hf⟩
  · cases hi : env.InterfaceByName (c.Str "if") with
    | error err => simp [hi] at h
    | ok ifc =>
      cases ha : env.Addrs ifc with
      | error err => simp [hi, ha] at h
      | ok addrs =>
        simp only [hi, ha] at h
        split_ifs at h with h3
        have h4 := (pickIPv4_ok h).1
        refine ⟨?_, fun ht => by simp [h1] at ht, fun _ => ⟨h2, h4⟩⟩
        cases h5 : To4 r.IP with
        | none => exact absurd h5 h4
        | some v => exact To4_ne_nil h5

theorem parseAddr_IP_nonempty_witness :
    (⟨IPv4 192 168 1 10, 0, ""⟩ : TCPAddr).IP ≠ []
      ∧ (ctxEth0.IsSet "addr" = true →
          ∃ a, sampleEnv.ResolveTCPAddr "tcp" (ctxEth0.Str "addr") = .ok a
            ∧ ((a.IP ≠ [] ∧ (⟨IPv4 192 168 1 10, 0, ""⟩ : TCPAddr).IP = a.IP)
              ∨ (a.IP = [] ∧ (⟨IPv4 192 168 1 10, 0, ""⟩ : TCPAddr).IP = IPv4zero)))
      ∧ (ctxEth0.IsSet "addr" = false →
          ctxEth0.IsSet "if" = true ∧ To4 (⟨IPv4 192 168 1 10, 0, ""⟩ : TCPAddr).IP ≠ none) :=
  parseAddr_IP_nonempty sampleEnv ctxEth0 ⟨IPv4 192 168 1 10, 0, ""⟩ (by decide)

/-- C9: with both `addr` and `if` set, `parseAddr` runs the explicit-address
path alone: calls and result are those of the same command line without `if`,
the only call is the TCP-address parse (no interface lookup), they do not
depend on what the interface functions would return, and the result is the
parsed address or the address-parse error, never a rejection of the pair. -/
theorem parseAddr_addr_before_if (env : Env) (c : Context)
    (hAddr : c.IsSet "addr" = true) (_hIf : c.IsSet "if" = true) :
    parseAddr env c = parseAddr env (c.unset "if")
      ∧ (parseAddr env c).1 = [.ResolveTCPAddr "tcp" (c.Str "addr")]
      ∧ (parseAddr env c).1.any Event.isInterfaceByName = false
      ∧ (∀ env2 : Env, env2.ResolveTCPAddr = env.ResolveTCPAddr →
          parseAddr env2 c = parseAddr env c)
      ∧ ((∃ a r, env.ResolveTCPAddr "tcp" (c.Str "addr") = .ok a
            ∧ (parseAddr env c).2 = .ok r)
          ∨ (∃ err, env.ResolveTCPAddr "tcp" (c.Str "addr") = .error err
            ∧ (parseAddr env c).2 = .error (.resolve err))) := by
  have hset : (c.unset "if").IsSet "addr" = true := by
    simpa [Context.unset, Context.IsSet] using hAddr
  have hstr : (c.unset "if").Str "addr" = c.Str "addr" := by
    simp [Context.unset, Context.Str]
  refine ⟨?_, ?_, ?_, ?_, ?_⟩
  · simp [parseAddr, hAddr, hset, hstr]
  · cases hr : env.ResolveTCPAddr "tcp" (c.Str "addr") <;> simp [parseAddr, hAddr, hr]
  · cases hr : env.ResolveTCPAddr "tcp" (c.Str "addr") <;>
      simp [parseAddr, hAddr, hr, Event.isInterfaceByName]
  · intro env2 h2
    simp [parseAddr, hAddr, h2]
  · cases hr : env.ResolveTCPAddr "tcp" (c.Str "addr") with
    | error err => exact Or.inr ⟨err, rfl, by simp [parseAddr, hAddr, hr]⟩
    | ok a =>
      exact Or.inl ⟨a, if a.IP.length = 0 then { a with IP := IPv4zero } else a, rfl,
        by simp [parseAddr, hAddr, hr]⟩

theorem parseAddr_addr_before_if_witness :
    ctxAddrIf.IsSet "addr" = true ∧ ctxAddrIf.IsSet "if" = true
      ∧ parseAddr sampleEnv ctxAddrIf = parseAddr sampleEnv (ctxAddrIf.unset "if")
      ∧ (parseAddr sampleEnv ctxAddrIf).1.any Event.isInterfaceByName = false :=
  ⟨by decide, by decide,
    (parseAddr_addr_before_if sampleEnv ctxAddrIf (by decide) (by decide)).1,
    (parseAddr_addr_before_if sampleEnv ctxAddrIf (by decide) (by decide)).2.2.1⟩

/-! ## The start-up sequence -/

/-- C4, as stated, fails when the discovery address does not parse: with
`join` and `discover` both set and the join address parsing to `peer`, the
run ends at line 43 and holds no `kin.ReJoin` call. -/
theorem server_join_precedence_counterexample :
    ctxJoinBadDiscover.IsSet "join" = true ∧ ctxJoinBadDiscover.IsSet "discover" = true
      ∧ (parseAddr sampleEnv ctxJoinBadDiscover).2 = .ok ⟨IPv4zero, 7000, ""⟩
      ∧ sampleEnv.ParseAddr (ctxJoinBadDiscover.Str "join") = .ok peer
      ∧ (server sampleEnv ctxJoinBadDiscover).events.any Event.isReJoin = false
      ∧ (server sampleEnv ctxJoinBadDiscover).ending
          = .fatal (.multicastNotParsed "address 239.0.0.1: missing port in address") := by
  decide

/-- C4, amended: with `join` and `discover` both set the discovery task is
never started; when moreover address resolution and both parses succeed, the
run reaches the `switch`, calls `kin.ReJoin` exactly once, with the parsed
join address, and goes on to the end. -/
theorem server_join_precedence (env : Env) (c : Context)
    (hj : c.IsSet "join" = true) (hd : c.IsSet "discover" = true) :
    (server env c).events.any Event.isDiscovery = false
      ∧ (∀ tcp a m, (parseAddr env c).2 = .ok tcp →
          env.ParseAddr (c.Str "join") = .ok a →
          env.ResolveUDPAddr "udp" (c.Str "discover") = .ok m →
          (server env c).events.filter Event.isReJoin = [.ReJoin a]
            ∧ (server env c).ending = .waitForever) := by
  have hfilter : ∀ p : Event → Bool, (∀ e ∈ argEvents env c, p e = false) →
      (argEvents env c).filter p = [] := by
    intro p hp
    simpa [List.filter_eq_nil_iff] using hp
  have hquiet := argEvents_not_later env c
  constructor
  · rw [List.any_eq_false]
    intro e he
    cases h1 : (parseAddr env c).2 with
    | error f1 =>
      have hf : (server env c).ending = .fatal f1 := by
        rw [server_of_parseAddr_error env c f1 h1]
      simp [(server_fatal_events env c f1 hf e he).2.2.2]
    | ok tcp =>
      cases h2 : (joinArg env c).2 with
      | error f2 =>
        have hf : (server env c).ending = .fatal f2 := by
          rw [server_of_joinArg_error env c tcp f2 h1 h2]
        simp [(server_fatal_events env c f2 hf e he).2.2.2]
      | ok j =>
        cases h3 : (multicastArg env c).2 with
        | error f3 =>
          have hf : (server env c).ending = .fatal f3 := by
            rw [server_of_multicastArg_error env c tcp j f3 h1 h2 h3]
          simp [(server_fatal_events env c f3 hf e he).2.2.2]
        | ok m =>
          have hsome : ∃ a, j = some a := by
            cases hp : env.ParseAddr (c.Str "join") with
            | error err => simp [joinArg, hj, hp] at h2
            | ok a =>
              rw [joinArg_set env c a hj hp] at h2
              injection h2 with h2
              exact ⟨a, h2.symm⟩
          obtain ⟨a, rfl⟩ := hsome
          rw [server_of_ok env c tcp (some a) m h1 h2 h3] at he
          simp only [joining, List.mem_append, List.mem_cons, List.mem_singleton,
            List.not_mem_nil, or_false] at he
          rcases he with ((he | he) | he) | he
          · simp [(hquiet e he).2.2.2]
          · rcases he with rfl | rfl | rfl | rfl <;> simp [Event.isDiscovery]
          · subst he
            simp [Event.isDiscovery]
          · rcases he with rfl | rfl <;> simp [Event.isDiscovery]
  · intro tcp a m h1 hp hm
    have h2 : (joinArg env c).2 = .ok (some a) := by rw [joinArg_set env c a hj hp]
    have h3 : (multicastArg env c).2 = .ok (some m) := by rw [multicastArg_set env c m hd hm]
    rw [server_of_ok env c tcp (some a) (some m) h1 h2 h3]
    refine ⟨?_, rfl⟩
    have h0 := hfilter Event.isReJoin (fun e he => (hquiet e he).2.2.1)
    simp only [List.filter_append, h0, joining]
    rfl

theorem server_join_precedence_witness :
    ctxJoinDiscover.IsSet "join" = true ∧ ctxJoinDiscover.IsSet "discover" = true
      ∧ (server sampleEnv ctxJoinDiscover).events.any Event.isDiscovery = false
      ∧ (server sampleEnv ctxJoinDiscover).events.filter Event.isReJoin = [.ReJoin peer]
      ∧ (server sampleEnv ctxJoinDiscover).ending = .waitForever :=
  ⟨by decide, by decide,
    (server_join_precedence sampleEnv ctxJoinDiscover (by decide) (by decide)).1,
    (server_join_precedence sampleEnv ctxJoinDiscover (by decide) (by decide)).2
      ⟨IPv4 10 0 0 5, 7000, ""⟩ peer ⟨IPv4 239 0 0 1, 9999, ""⟩
      (by decide) (by decide) (by decide)⟩

/-- C5, as stated, fails on a join address that does not parse: address
resolution succeeds, and the run ends at line 36, before `load`, with the
join-address parse error, which is not an address-resolution error. -/
theorem server_failure_before_load_counterexample :
    (parseAddr sampleEnv ctxBadJoin).2 = .ok ⟨IPv4zero, 7000, ""⟩
      ∧ (server sampleEnv ctxBadJoin).ending = .fatal (.joinNotParsed "unrecognized address")
      ∧ (server sampleEnv ctxBadJoin).events.any Event.isLoad = false
      ∧ (Fatal.joinNotParsed "unrecognized address").kind = some .JoinAddressParseError
      ∧ ErrorKind.JoinAddressParseError.isAddressResolution = false := by
  decide

/-- C5, amended: in every run, failing or not, the banner line is followed
at once by the calls of `parseAddr`, before every other step; a run that
`server` ends with a `log.Fatal` has not reached `load`, and that failure is
one of the five address-resolution errors, raised by `parseAddr` with no
further call made, or, `parseAddr` having returned, the join-address parse
error, or, the join block having passed as well, the multicast-address parse
error. -/
theorem server_failure_before_load (env : Env) (c : Context) :
    (∃ rest, (server env c).events
        = Event.println "CIRCUIT 2014 gocircuit.org" :: ((parseAddr env c).1 ++ rest))
      ∧ (∀ f, (server env c).ending = .fatal f →
          (server env c).events.any Event.isLoad = false
            ∧ (f ≠ .assertionPanic →
                ((parseAddr env c).2 = .error f
                  ∧ (server env c).events
                      = Event.println "CIRCUIT 2014 gocircuit.org" :: (parseAddr env c).1
                  ∧ ∃ k, f.kind = some k ∧ k.isAddressResolution = true)
                ∨ ((∃ tcp, (parseAddr env c).2 = .ok tcp)
                  ∧ (∃ err, env.ParseAddr (c.Str "join") = .error err
                      ∧ f = .joinNotParsed err)
                  ∧ f.kind = some .JoinAddressParseError)
                ∨ ((∃ tcp, (parseAddr env c).2 = .ok tcp)
                  ∧ (c.IsSet "join" = true → ∃ a, env.ParseAddr (c.Str "join") = .ok a)
                  ∧ (∃ err, env.ResolveUDPAddr "udp" (c.Str "discover") = .error err
                      ∧ f = .multicastNotParsed err)
                  ∧ f.kind = some .MulticastAddressParseError))) := by
  refine ⟨server_events_start env c, fun f h => ⟨(server_fatal_any env c f h).1, ?_⟩⟩
  intro hpanic
  rcases server_fatal_cases env c f h with h1 | ⟨h1, h2⟩ | ⟨h1, ⟨j, h2⟩, h3⟩
  · refine Or.inl ⟨h1, ?_, ?_⟩
    · rw [server_of_parseAddr_error env c f h1]
      rfl
    · rcases parseAddr_error_kind env c f h1 with hp | hk
      · exact absurd hp hpanic
      · exact hk
  · obtain ⟨_, err, herr, rfl⟩ := joinArg_error env c f h2
    exact Or.inr (Or.inl ⟨h1, ⟨err, herr, rfl⟩, rfl⟩)
  · obtain ⟨_, err, herr, rfl⟩ := multicastArg_error env c f h3
    refine Or.inr (Or.inr ⟨h1, ?_, ⟨err, herr, rfl⟩, rfl⟩)
    intro hj
    cases hp : env.ParseAddr (c.Str "join") with
    | error e2 => simp [joinArg, hj, hp] at h2
    | ok a => exact ⟨a, rfl⟩

theorem server_failure_before_load_witness :
    (server sampleEnv ctxEth1).ending = .fatal .noIPv4
      ∧ (server sampleEnv ctxEth1).events.any Event.isLoad = false
      ∧ (Fatal.noIPv4 ≠ .assertionPanic →
          ((parseAddr sampleEnv ctxEth1).2 = .error .noIPv4
            ∧ (server sampleEnv ctxEth1).events
                = Event.println "CIRCUIT 2014 gocircuit.org" :: (parseAddr sampleEnv ctxEth1).1
            ∧ ∃ k, Fatal.noIPv4.kind = some k ∧ k.isAddressResolution = true)
          ∨ ((∃ tcp, (parseAddr sampleEnv ctxEth1).2 = .ok tcp)
            ∧ (∃ err, sampleEnv.ParseAddr (ctxEth1.Str "join") = .error err
                ∧ Fatal.noIPv4 = .joinNotParsed err)
            ∧ Fatal.noIPv4.kind = some .JoinAddressParseError)
          ∨ ((∃ tcp, (parseAddr sampleEnv ctxEth1).2 = .ok tcp)
            ∧ (ctxEth1.IsSet "join" = true →
                ∃ a, sampleEnv.ParseAddr (ctxEth1.Str "join") = .ok a)
            ∧ (∃ err, sampleEnv.ResolveUDPAddr "udp" (ctxEth1.Str "discover") = .error err
                ∧ Fatal.noIPv4 = .multicastNotParsed err)
            ∧ Fatal.noIPv4.kind = some .MulticastAddressParseError)) :=
  ⟨by decide, (server_failure_before_load sampleEnv ctxEth1).2 .noIPv4 (by decide)⟩

/-- C6: with `join` set and every argument parsing, the run holds exactly one
`kin.ReJoin` call, on the address parsed from the `join` string; it comes
after `load` and before the two `circuit.Listen` calls, and no discovery task
is started. -/
theorem server_explicit_join_order (env : Env) (c : Context) (tcp : TCPAddr) (a : NAddr)
    (hj : c.IsSet "join" = true)
    (h1 : (parseAddr env c).2 = .ok tcp)
    (hp : env.ParseAddr (c.Str "join") = .ok a)
    (hm : c.IsSet "discover" = true →
      ∃ m, env.ResolveUDPAddr "udp" (c.Str "discover") = .ok m) :
    (∃ pre, (server env c).events
        = pre ++ [.readkey, .load tcp (varDir env c) (env.readkey c), .NewKin, .NewLocus,
            .ReJoin a, .Listen env.ServiceName .xkin, .Listen LocusName .xlocus]
        ∧ pre.any Event.isLoad = false ∧ pre.any Event.isListen = false
        ∧ pre.any Event.isReJoin = false)
      ∧ (server env c).events.filter Event.isReJoin = [.ReJoin a]
      ∧ (server env c).events.any Event.isDiscovery = false
      ∧ (server env c).ending = .waitForever := by
  have h2 : (joinArg env c).2 = .ok (some a) := by rw [joinArg_set env c a hj hp]
  obtain ⟨m, h3, _⟩ := multicastArg_ok env c hm
  have hrun := server_of_ok env c tcp (some a) m h1 h2 h3
  have hany := argEvents_any env c
  refine ⟨⟨argEvents env c, ?_, hany.1, hany.2.1, hany.2.2.1⟩, ?_, ?_, ?_⟩
  · rw [hrun]
    simp [joining]
  · rw [hrun]
    simp only [List.filter_append, argEvents_filter_reJoin, joining]
    rfl
  · rw [hrun]
    simp [joining, hany.2.2.2, Event.isDiscovery]
  · rw [hrun]

theorem server_explicit_join_order_witness :
    (∃ pre, (server sampleEnv ctxJoin).events
        = pre ++ [.readkey,
            .load ⟨IPv4 10 0 0 5, 7000, ""⟩ (varDir sampleEnv ctxJoin) (sampleEnv.readkey ctxJoin),
            .NewKin, .NewLocus,
            .ReJoin peer, .Listen sampleEnv.ServiceName .xkin, .Listen LocusName .xlocus]
        ∧ pre.any Event.isLoad = false ∧ pre.any Event.isListen = false
        ∧ pre.any Event.isReJoin = false)
      ∧ (server sampleEnv ctxJoin).events.filter Event.isReJoin = [.ReJoin peer]
      ∧ (server sampleEnv ctxJoin).events.any Event.isDiscovery = false
      ∧ (server sampleEnv ctxJoin).ending = .waitForever :=
  server_explicit_join_order sampleEnv ctxJoin ⟨IPv4 10 0 0 5, 7000, ""⟩ peer
    (by decide) (by decide) (by decide) (fun h => absurd h (by decide))

/-- C10: with address resolution succeeding and `join` set and parsing, a
`discover` value that the UDP-address parser rejects ends the run with the
multicast-address parse error before `load`, so without any join call or
registration; and when the `join` value does not parse either, the run ends
with the join-address parse error, the UDP-address parser not being called. -/
theorem server_discover_parsed_eagerly (env : Env) (c : Context) (tcp : TCPAddr)
    (err : String)
    (h1 : (parseAddr env c).2 = .ok tcp)
    (hj : c.IsSet "join" = true) (hd : c.IsSet "discover" = true)
    (hm : env.ResolveUDPAddr "udp" (c.Str "discover") = .error err) :
    (∀ a, env.ParseAddr (c.Str "join") = .ok a →
        (server env c).ending = .fatal (.multicastNotParsed err)
          ∧ (Fatal.multicastNotParsed err).kind = some .MulticastAddressParseError
          ∧ (server env c).events.any Event.isLoad = false
          ∧ (server env c).events.any Event.isReJoin = false
          ∧ (server env c).events.any Event.isListen = false)
      ∧ (∀ err2, env.ParseAddr (c.Str "join") = .error err2 →
        (server env c).ending = .fatal (.joinNotParsed err2)
          ∧ (Fatal.joinNotParsed err2).kind = some .JoinAddressParseError
          ∧ Event.ResolveUDPAddr "udp" (c.Str "discover") ∉ (server env c).events) := by
  constructor
  · intro a hp
    have h2 : (joinArg env c).2 = .ok (some a) := by rw [joinArg_set env c a hj hp]
    have h3 : (multicastArg env c).2 = .error (.multicastNotParsed err) := by
      simp [multicastArg, hd, hm]
    have hend : (server env c).ending = .fatal (.multicastNotParsed err) := by
      rw [server_of_multicastArg_error env c tcp (some a) _ h1 h2 h3]
    have hany := server_fatal_any env c _ hend
    exact ⟨hend, rfl, hany.1, hany.2.2.1, hany.2.1⟩
  · intro err2 hp
    have h2 : (joinArg env c).2 = .error (.joinNotParsed err2) := by
      simp [joinArg, hj, hp]
    have hrun := server_of_joinArg_error env c tcp _ h1 h2
    refine ⟨by rw [hrun], rfl, ?_⟩
    rw [hrun]
    have hj1 : (joinArg env c).1 = [.ParseAddr (c.Str "join")] := by
      simp [joinArg, hj, hp]
    intro hmem
    simp only [hj1, List.mem_append, List.mem_singleton, reduceCtorEq, or_false] at hmem
    rcases hmem with hmem | hmem
    · exact absurd hmem (by simp)
    · cases hc : c.IsSet "addr" with
      | true =>
        cases hr : env.ResolveTCPAddr "tcp" (c.Str "addr") <;>
          simp [parseAddr, hc, hr] at hmem
      | false =>
        cases hi : c.IsSet "if" with
        | false => simp [parseAddr, hc, hi] at hmem
        | true =>
          cases hn : env.InterfaceByName (c.Str "if") with
          | error e => simp [parseAddr, hc, hi, hn] at hmem
          | ok ifc =>
            cases ha : env.Addrs ifc <;> simp [parseAddr, hc, hi, hn, ha] at hmem

theorem server_discover_parsed_eagerly_witness :
    (server sampleEnv ctxJoinBadDiscover).ending
        = .fatal (.multicastNotParsed "address 239.0.0.1: missing port in address")
      ∧ (Fatal.multicastNotParsed "address 239.0.0.1: missing port in address").kind
          = some .MulticastAddressParseError
      ∧ (server sampleEnv ctxJoinBadDiscover).events.any Event.isLoad = false
      ∧ (server sampleEnv ctxJoinBadDiscover).events.any Event.isReJoin = false
      ∧ (server sampleEnv ctxJoinBadDiscover).events.any Event.isListen = false :=
  (server_discover_parsed_eagerly sampleEnv ctxJoinBadDiscover ⟨IPv4zero, 7000, ""⟩
    "address 239.0.0.1: missing port in address"
    (by decide) (by decide) (by decide) (by decide)).1 peer (by decide)

end Circuit
